import Mathlib

/-!
Verification of the gpsHeading telemetry repository.

The repository is a family of small Python programs that decode a binary
u-blox navigation stream (UBX NAV-PVT and NAV-RELPOSNED frames) and an ASCII
attitude-sensor sentence format, fuse the decoded values into a shared
telemetry buffer, apply sign/offset corrections and fixed-precision decimal
formatting, and broadcast the result to network consumers.

This file is a shallow embedding of that code:
* Python floats are modelled as exact rationals (`ℚ`); `x % y` on floats is
  `pymod`, `round(x, n)` and `f-string` fixed-point formatting use
  round-half-to-even (`roundHalfEven`), matching CPython's behaviour on the
  exact values that arise in the proofs.
* byte strings are `List ℕ`, Python slices are `sliceBytes` (truncating,
  never out of bounds), and `int.from_bytes` is `fromBytesLE` /
  `sintFromBytesLE`.
* a value stored in the telemetry dictionary is either a raw float
  (`FVal.num`) or an already-formatted fixed-point decimal string, modelled
  by its scaled integer value and its number of decimal places
  (`FVal.fmtd`); `float(s)` on such a string is `FVal.toRat`.
-/

namespace GpsHeading

/-! ### Rational models of the Python numeric primitives -/

/-- Python's float modulo `x % m` (sign of the result follows `m`):
`x - m * floor (x / m)`. -/
def pymod (x m : ℚ) : ℚ := x - m * ⌊x / m⌋

/-- Round to the nearest integer, ties to the even integer: the rounding used
by CPython's `round` builtin and by fixed-point `f-string` formatting. -/
def roundHalfEven (x : ℚ) : ℤ :=
  let f := ⌊x⌋
  if x - f < 1 / 2 then f
  else if 1 / 2 < x - f then f + 1
  else if f % 2 = 0 then f else f + 1

/-- Python `round(x, p)`: round to `p` decimal places, ties to even. -/
def roundDp (p : ℕ) (x : ℚ) : ℚ := (roundHalfEven (x * 10 ^ p) : ℚ) / 10 ^ p

/-- A value held in one of the telemetry dictionaries: either a raw float, or
the fixed-point decimal string produced by an f-string `f"{x:.pf}"`, recorded
as its scaled integer `scaled` together with its number of decimal places
`places` (the string reads `scaled / 10 ^ places` with exactly `places`
digits after the point). -/
inductive FVal where
  | num (q : ℚ)
  | fmtd (scaled : ℤ) (places : ℕ)
  deriving DecidableEq, Repr

/-- Python `float(...)` applied to a stored telemetry value: a raw float is
returned unchanged and a formatted decimal string parses back exactly. -/
def FVal.toRat : FVal → ℚ
  | .num q => q
  | .fmtd s p => (s : ℚ) / 10 ^ p

/-- How many digits a stored value shows after the decimal point (`none` for
a raw, unformatted float). -/
def FVal.places : FVal → Option ℕ
  | .num _ => none
  | .fmtd _ p => some p

/-- The f-string `f"{x:.pf}"`: fixed-point formatting of `x` to `p` decimal
places (correctly rounded, ties to even). -/
def formatFixed (p : ℕ) (x : ℚ) : FVal := .fmtd (roundHalfEven (x * 10 ^ p)) p

/-- One pass of the rounding loops in `apply_offset_and_sign`:
`data[field] = f"{float(data[field]):.pf}"`. -/
def fmtStep (p : ℕ) (v : FVal) : FVal := formatFixed p v.toRat

/-! ### Byte-level primitives -/

/-- Python slice `payload[a:b]` on a byte string: truncating, never reads out
of bounds. -/
def sliceBytes (l : List ℕ) (a b : ℕ) : List ℕ := (l.take b).drop a

/-- `int.from_bytes(bs, byteorder='little')`. -/
def fromBytesLE (bs : List ℕ) : ℕ := bs.foldr (fun b acc => b + 256 * acc) 0

/-- `int.from_bytes(bs, byteorder='little', signed=True)`: two's-complement
interpretation of the (possibly truncated, possibly empty) byte string. -/
def sintFromBytesLE (bs : List ℕ) : ℤ :=
  let u := fromBytesLE bs
  if 256 ^ bs.length ≤ 2 * u then (u : ℤ) - 256 ^ bs.length else (u : ℤ)

/-! ### Carrier-solution constants and the RTK fix-quality labels -/

def FLAGS_CARR_SOLN_NONE : ℕ := 0

def FLAGS_CARR_SOLN_FLOAT : ℕ := 8

def FLAGS_CARR_SOLN_FIXED : ℕ := 16

def FLAGS_CARR_SOLN_MASK : ℕ := 0b00011000

def labelNone : String := "None"

def labelFloat : String := "Float"

def labelFixed : String := "Fixed"

def labelUnknown : String := "Unknown"

def labelNA : String := "N/A"

/-- The `if carr_soln_status == ...` chain shared by both
`parse_ubx_navrelposned` variants. -/
def rtkFixQualityLabel (carrSolnStatus : ℕ) : String :=
  if carrSolnStatus = FLAGS_CARR_SOLN_NONE then labelNone
  else if carrSolnStatus = FLAGS_CARR_SOLN_FLOAT then labelFloat
  else if carrSolnStatus = FLAGS_CARR_SOLN_FIXED then labelFixed
  else labelUnknown

/-! ### `src/GPS_TCP_Client.py`: the GPS-only client's data buffer and the
UBX payload interpreters -/

/-- The `data_buffer` dictionary of `src/GPS_TCP_Client.py` (all fields start
as `None`). -/
structure GpsBuffer where
  timestamp : Option ℕ
  latitude : Option ℚ
  longitude : Option ℚ
  altitude : Option ℚ
  heading : Option ℚ
  antennaDistance : Option ℚ
  rtkFixQuality : Option String
  deriving DecidableEq, Repr

/-- The initial `data_buffer` of `src/GPS_TCP_Client.py`. -/
def GpsBuffer.init : GpsBuffer := ⟨none, none, none, none, none, none, none⟩

/-- `parse_ubx_navpvt` of `src/GPS_TCP_Client.py` (lines 106-112): stores
timestamp, latitude, longitude and altitude decoded from the payload slices
`[0:4]`, `[28:32]`, `[24:28]`, `[32:36]`; the float scale factors `1e-7` and
`0.001` are the exact rationals `1/10^7` and `1/10^3`. -/
def parse_ubx_navpvt (payload : List ℕ) (b : GpsBuffer) : GpsBuffer :=
  { b with
    timestamp := some (fromBytesLE (sliceBytes payload 0 4)),
    latitude := some ((sintFromBytesLE (sliceBytes payload 28 32) : ℚ) / 10 ^ 7),
    longitude := some ((sintFromBytesLE (sliceBytes payload 24 28) : ℚ) / 10 ^ 7),
    altitude := some ((sintFromBytesLE (sliceBytes payload 32 36) : ℚ) / 10 ^ 3) }

/-- `parse_ubx_navrelposned` of `src/GPS_TCP_Client.py` (lines 114-131):
stores antenna distance, heading and the RTK fix-quality label decoded from
`flags & FLAGS_CARR_SOLN_MASK`. -/
def parse_ubx_navrelposned (payload : List ℕ) (b : GpsBuffer) : GpsBuffer :=
  let flags := fromBytesLE (sliceBytes payload 36 40)
  let carrSolnStatus := flags &&& FLAGS_CARR_SOLN_MASK
  { b with
    antennaDistance := some ((fromBytesLE (sliceBytes payload 20 24) : ℚ) / 10 ^ 2),
    heading := some ((sintFromBytesLE (sliceBytes payload 24 28) : ℚ) / 10 ^ 5),
    rtkFixQuality := some (rtkFixQualityLabel carrSolnStatus) }

/-! ### `src/TCP/ServerSendsData/GPS_IMU_OFFSET_TCP_Server.py`: module
globals, configuration, data buffer, UBX interpreters, correction pipeline
and the heading calibrator -/

/-- The configuration mapping (`config.json` keys with their defaults). -/
structure Config where
  headingOffset : ℚ
  negateRoll : Bool
  negatePitch : Bool
  negateYaw : Bool
  deriving DecidableEq, Repr

/-- The default configuration used when `config.json` is missing. -/
def Config.default : Config := ⟨0, false, false, false⟩

/-- The module-level globals of `GPS_IMU_OFFSET_TCP_Server.py`:
`original_heading`, `original_imu_pitch`, `original_imu_roll`,
`original_imu_heading` and `imu_heading_offset`. -/
structure ServerGlobals where
  originalHeading : Option ℚ
  originalImuPitch : Option ℚ
  originalImuRoll : Option ℚ
  originalImuHeading : Option ℚ
  imuHeadingOffset : ℚ
  deriving DecidableEq, Repr

/-- The initial globals (`None` everywhere, offset `0.0`). -/
def ServerGlobals.init : ServerGlobals := ⟨none, none, none, none, 0⟩

/-- The `data_buffer` dictionary of `GPS_IMU_OFFSET_TCP_Server.py`.  Numeric
fields hold an `FVal` because `apply_offset_and_sign` mutates the dictionary
in place, replacing floats by formatted strings. -/
structure ServerData where
  timestamp : Option ℕ
  latitude : Option FVal
  longitude : Option FVal
  altitude : Option FVal
  heading : Option FVal
  antennaDistance : Option FVal
  rtkFixQuality : Option String
  imuHeading : Option FVal
  imuPitch : Option FVal
  imuRoll : Option FVal
  imuTemperature : Option FVal
  deriving DecidableEq, Repr

/-- The initial `data_buffer` of `GPS_IMU_OFFSET_TCP_Server.py`. -/
def ServerData.init : ServerData :=
  ⟨none, none, none, none, none, none, none, none, none, none, none⟩

/-- `parse_ubx_navpvt` of `GPS_IMU_OFFSET_TCP_Server.py` (lines 326-332):
identical decoding to the client variant, writing into the server buffer. -/
def parse_ubx_navpvt_srv (payload : List ℕ) (d : ServerData) : ServerData :=
  { d with
    timestamp := some (fromBytesLE (sliceBytes payload 0 4)),
    latitude := some (.num ((sintFromBytesLE (sliceBytes payload 28 32) : ℚ) / 10 ^ 7)),
    longitude := some (.num ((sintFromBytesLE (sliceBytes payload 24 28) : ℚ) / 10 ^ 7)),
    altitude := some (.num ((sintFromBytesLE (sliceBytes payload 32 36) : ℚ) / 10 ^ 3)) }

/-- `parse_ubx_navrelposned` of `GPS_IMU_OFFSET_TCP_Server.py`
(lines 334-354): stores the antenna distance in the buffer and the raw
heading in the global `original_heading`; the `rtk_fix_quality` label is
computed by the same `if` chain as in the client but the buffer field is then
assigned the literal `"N/A"` (line 354). -/
def parse_ubx_navrelposned_srv (payload : List ℕ) (g : ServerGlobals)
    (d : ServerData) : ServerGlobals × ServerData :=
  let flags := fromBytesLE (sliceBytes payload 36 40)
  let carrSolnStatus := flags &&& FLAGS_CARR_SOLN_MASK
  let _rtk_fix_quality := rtkFixQualityLabel carrSolnStatus
  ({ g with
      originalHeading := some ((sintFromBytesLE (sliceBytes payload 24 28) : ℚ) / 10 ^ 5) },
   { d with
      antennaDistance := some (.num ((fromBytesLE (sliceBytes payload 20 24) : ℚ) / 10 ^ 2)),
      rtkFixQuality := some labelNA })

/-- `apply_offset_and_sign` of `GPS_IMU_OFFSET_TCP_Server.py` (lines 63-106),
step by step in source order:
1. `Heading` is recomputed from `original_heading` plus the configured offset
   (mod 360), or set to `None`;
2. the three IMU fields are recomputed from the `original_*` globals with the
   optional negation;
3. `IMU_Heading` is then overwritten: if `original_imu_heading` is present it
   becomes `f"{(original_imu_heading + imu_heading_offset) % 360.0:.1f}"`,
   else `None`;
4. every present field of the seven-place list is formatted to 7 decimal
   places (`float` on an already-formatted string reparses it exactly, so the
   `ValueError` branch is unreachable);
5. every present field of the one-place list is re-formatted to 1 decimal
   place. -/
def apply_offset_and_sign_srv (cfg : Config) (g : ServerGlobals)
    (d : ServerData) : ServerData :=
  -- step 1: heading offset
  let d := { d with
    heading := g.originalHeading.map (fun h => .num (pymod (h + cfg.headingOffset) 360)) }
  -- step 2: optional negation of the IMU fields
  let d := { d with
    imuRoll := g.originalImuRoll.map
      (fun r => .num (if cfg.negateRoll then -r else r)),
    imuPitch := g.originalImuPitch.map
      (fun p => .num (if cfg.negatePitch then -p else p)),
    imuHeading := g.originalImuHeading.map
      (fun h => .num (if cfg.negateYaw then -h else h)) }
  -- step 3: IMU heading overwritten by the calibrated-offset formula
  let d := { d with
    imuHeading := g.originalImuHeading.map
      (fun h => formatFixed 1 (pymod (h + g.imuHeadingOffset) 360)) }
  -- step 4: fields_to_round_seven
  let d := { d with
    latitude := d.latitude.map (fmtStep 7),
    longitude := d.longitude.map (fmtStep 7),
    altitude := d.altitude.map (fmtStep 7),
    heading := d.heading.map (fmtStep 7),
    antennaDistance := d.antennaDistance.map (fmtStep 7),
    imuHeading := d.imuHeading.map (fmtStep 7),
    imuPitch := d.imuPitch.map (fmtStep 7),
    imuRoll := d.imuRoll.map (fmtStep 7),
    imuTemperature := d.imuTemperature.map (fmtStep 7) }
  -- step 5: fields_to_round_one
  { d with
    altitude := d.altitude.map (fmtStep 1),
    heading := d.heading.map (fmtStep 1),
    antennaDistance := d.antennaDistance.map (fmtStep 1),
    imuHeading := d.imuHeading.map (fmtStep 1),
    imuPitch := d.imuPitch.map (fmtStep 1),
    imuRoll := d.imuRoll.map (fmtStep 1),
    imuTemperature := d.imuTemperature.map (fmtStep 1) }

/-- `apply_offset_and_sign` of `src/GPS_IMU_TCP_Client.py` (lines 55-89):
heading offset, optional negations, then `Latitude`/`Longitude` formatted to
7 places and all other numeric fields to 1 place (each exactly once; this
variant has no calibrated IMU offset and no seven-then-one double pass). -/
def apply_offset_and_sign_cli (cfg : Config) (g : ServerGlobals)
    (d : ServerData) : ServerData :=
  let d := { d with
    heading := g.originalHeading.map (fun h => .num (pymod (h + cfg.headingOffset) 360)) }
  let d := { d with
    imuRoll := g.originalImuRoll.map
      (fun r => .num (if cfg.negateRoll then -r else r)),
    imuPitch := g.originalImuPitch.map
      (fun p => .num (if cfg.negatePitch then -p else p)),
    imuHeading := g.originalImuHeading.map
      (fun h => .num (if cfg.negateYaw then -h else h)) }
  let d := { d with
    latitude := d.latitude.map (fmtStep 7),
    longitude := d.longitude.map (fmtStep 7) }
  { d with
    altitude := d.altitude.map (fmtStep 1),
    heading := d.heading.map (fmtStep 1),
    antennaDistance := d.antennaDistance.map (fmtStep 1),
    imuHeading := d.imuHeading.map (fmtStep 1),
    imuPitch := d.imuPitch.map (fmtStep 1),
    imuRoll := d.imuRoll.map (fmtStep 1),
    imuTemperature := d.imuTemperature.map (fmtStep 1) }

/-- The `data_buffer` of `src/IMU_TCP_Server.py` (IMU fields only). -/
structure ImuData where
  imuHeading : Option FVal
  imuPitch : Option FVal
  imuRoll : Option FVal
  imuTemperature : Option FVal
  deriving DecidableEq, Repr

/-- `apply_offset_and_sign` of `src/IMU_TCP_Server.py` (lines 44-61):
optional negations, then every present IMU field is formatted to 7 (seven)
decimal places. -/
def apply_offset_and_sign_imu (cfg : Config) (g : ServerGlobals)
    (d : ImuData) : ImuData :=
  let d := { d with
    imuRoll := g.originalImuRoll.map
      (fun r => .num (if cfg.negateRoll then -r else r)),
    imuPitch := g.originalImuPitch.map
      (fun p => .num (if cfg.negatePitch then -p else p)),
    imuHeading := g.originalImuHeading.map
      (fun h => .num (if cfg.negateYaw then -h else h)) }
  { d with
    imuHeading := d.imuHeading.map (fmtStep 7),
    imuPitch := d.imuPitch.map (fmtStep 7),
    imuRoll := d.imuRoll.map (fmtStep 7),
    imuTemperature := d.imuTemperature.map (fmtStep 7) }

/-- One iteration of the loop body of `adjust_imu_heading_offset` in
`GPS_IMU_OFFSET_TCP_Server.py` (lines 224-254): if both headings are present,
normalize each mod 360, compute their difference mod 360, fold it into
`(-180, 180]`, round to 7 decimal places, and replace the offset only when
the absolute difference exceeds `0.1`; otherwise the globals are unchanged. -/
def adjust_imu_heading_offset_tick (g : ServerGlobals) : ServerGlobals :=
  match g.originalImuHeading, g.originalHeading with
  | some originalImuHeading, some originalHeading =>
    let gps_heading := pymod originalHeading 360
    let imu_heading := pymod originalImuHeading 360
    let difference := pymod (gps_heading - imu_heading) 360
    let difference := if 180 < difference then difference - 360 else difference
    let difference := roundDp 7 difference
    if 1 / 10 < |difference| then { g with imuHeadingOffset := difference }
    else g
  | _, _ => g

/-! ### The resynchronizing UBX frame decoder

The inner `while len(buffer_gps) >= 6` loop of `read_serial_data` (identical
in `src/GPS_TCP_Client.py` lines 69-87 and
`GPS_IMU_OFFSET_TCP_Server.py` lines 285-303). -/

/-- A decoded frame `(messageClass, messageId, payload)`. -/
structure UbxFrame where
  msgClass : ℕ
  msgId : ℕ
  payload : List ℕ
  deriving DecidableEq, Repr

/-- The two-byte UBX sync marker `b'\xb5\x62'`. -/
def UBX_HEADER : List ℕ := [0xb5, 0x62]

/-- `6 + int.from_bytes(buffer[4:6], 'little') + 2`: total frame length read
from the little-endian 16-bit payload length at offsets 4-5. -/
def ubxTotalLen (buf : List ℕ) : ℕ := 6 + (buf.getD 4 0 + 256 * buf.getD 5 0) + 2

/-- The decoder loop: while at least 6 bytes are buffered, either a complete
frame is extracted (`ubx_message = buffer[:total_length]`, class and id at
offsets 2 and 3, payload `ubx_message[6:-2]`, buffer advanced past the
frame), or the head byte mismatches the sync marker and exactly one byte is
discarded, or an incomplete frame is detected and the loop breaks, keeping
the partial frame buffered.  Returns the extracted frames in order together
with the remaining buffer. -/
def processBuffer (buf : List ℕ) : List UbxFrame × List ℕ :=
  if h6 : 6 ≤ buf.length then
    if buf.take 2 = UBX_HEADER then
      let total := ubxTotalLen buf
      if htot : total ≤ buf.length then
        let frame : UbxFrame :=
          ⟨buf.getD 2 0, buf.getD 3 0, (buf.take (total - 2)).drop 6⟩
        let rest := processBuffer (buf.drop total)
        (frame :: rest.1, rest.2)
      else ([], buf)
    else processBuffer (buf.drop 1)
  else ([], buf)
termination_by buf.length
decreasing_by
  · have h8 : 8 ≤ ubxTotalLen buf := by unfold ubxTotalLen; omega
    simp only [List.length_drop]
    omega
  · simp only [List.length_drop]
    omega

/-- Delivering the same byte stream in successive chunks: after each chunk
the new bytes are appended to the leftover buffer and the decoder loop runs
again (`buffer_gps += raw_data_gps` followed by the `while` loop). -/
def feedChunks (chunks : List (List ℕ)) : List UbxFrame × List ℕ :=
  chunks.foldl
    (fun acc c =>
      let r := processBuffer (acc.2 ++ c)
      (acc.1 ++ r.1, r.2))
    ([], [])

/-! ### `src/GPS_TCP_Client.py`: heading offset applied on every send cycle -/

/-- `apply_heading_offset` (lines 42-45): mutates `data_buffer["Heading"]` in
place, adding the configured offset mod 360 whenever a heading is stored. -/
def apply_heading_offset (headingOffset : ℚ) (heading : Option ℚ) : Option ℚ :=
  heading.map (fun h => pymod (h + headingOffset) 360)

/-- The stored `Heading` after `n` executions of `send_data_to_server`
(each send cycle calls `apply_heading_offset` before serializing, and the
mutated value stays in the buffer). -/
def headingAfterSends (headingOffset : ℚ) (heading : Option ℚ) (n : ℕ) : Option ℚ :=
  (apply_heading_offset headingOffset)^[n] heading

/-! ### Python `float(str)` on sentence fragments

`float` on arbitrary text either returns the exact decimal value or raises
`ValueError`.  The model below covers the decimal-literal forms (optional
surrounding whitespace, optional sign, digits with at most one point,
optional exponent); the `inf`/`nan`/underscore spellings accepted by CPython
never decode to an attitude reading and are modelled as failures. -/

/-- Split a character list at every occurrence of `sep` (like
`str.split(sep)` restricted to single characters). -/
def splitOnChar (sep : Char) : List Char → List (List Char)
  | [] => [[]]
  | c :: cs =>
    let r := splitOnChar sep cs
    if c = sep then [] :: r
    else
      match r with
      | [] => [[c]]
      | g :: gs => (c :: g) :: gs

/-- Decimal value of a digit string (callers check `Char.isDigit` first). -/
def digitsToNat (cs : List Char) : ℕ :=
  cs.foldl (fun a c => 10 * a + (c.toNat - 48)) 0

/-- Parse a non-empty all-digit string. -/
def parseNatDigits (cs : List Char) : Option ℕ :=
  if cs ≠ [] ∧ cs.all Char.isDigit then some (digitsToNat cs) else none

/-- Parse the mantissa `digits [. digits]` (either side of the point may be
empty, but not both). -/
def parseMantissa (cs : List Char) : Option ℚ :=
  match splitOnChar '.' cs with
  | [ip] => (parseNatDigits ip).map (fun n => (n : ℚ))
  | [ip, fp] =>
    if (ip ≠ [] ∨ fp ≠ []) ∧ ip.all Char.isDigit ∧ fp.all Char.isDigit then
      some ((digitsToNat ip : ℚ) + (digitsToNat fp : ℚ) / 10 ^ fp.length)
    else none
  | _ => none

/-- Allow one optional leading sign in front of `core`. -/
def parseSignedWith (core : List Char → Option ℚ) : List Char → Option ℚ
  | '+' :: rest => core rest
  | '-' :: rest => (core rest).map (fun q => -q)
  | cs => core cs

/-- Parse a signed exponent (digits only). -/
def parseExp : List Char → Option ℤ
  | '+' :: rest => (parseNatDigits rest).map (fun n => (n : ℤ))
  | '-' :: rest => (parseNatDigits rest).map (fun n => -(n : ℤ))
  | cs => (parseNatDigits cs).map (fun n => (n : ℤ))

/-- Strip leading and trailing whitespace. -/
def trimChars (cs : List Char) : List Char :=
  ((cs.dropWhile Char.isWhitespace).reverse.dropWhile Char.isWhitespace).reverse

/-- Python `float(...)` on a character list: trim, lower-case, then
`mantissa [e exponent]`. -/
def pyFloatChars (cs : List Char) : Option ℚ :=
  let cs := (trimChars cs).map Char.toLower
  match splitOnChar 'e' cs with
  | [m] => parseSignedWith parseMantissa m
  | [m, ex] =>
    match parseSignedWith parseMantissa m, parseExp ex with
    | some mv, some e => some (mv * 10 ^ e)
    | _, _ => none
  | _ => none

/-- Python `float(...)` on a string. -/
def pyFloat (s : String) : Option ℚ := pyFloatChars s.toList

/-! ### The attitude sentence decoders (`parse_message`) -/

/-- `message.find(ch, start)`: index of the first occurrence of `ch` at
position `start` or later (`none` models Python's `-1`). -/
def findFrom (cs : List Char) (ch : Char) (start : ℕ) : Option ℕ :=
  ((cs.drop start).findIdx? (fun c => c = ch)).map (fun i => i + start)

/-- `message.find(ch)` / `message.index(ch)`. -/
def findCh (cs : List Char) (ch : Char) : Option ℕ := findFrom cs ch 0

/-- Python slice `message[a:b]` on text. -/
def sliceChars (cs : List Char) (a b : ℕ) : List Char := (cs.take b).drop a

/-- The preamble shared by every `parse_message` variant: if the sentence
starts with `$` and contains `*`, keep only `message[1:message.index('*')]`. -/
def stripSentence (cs : List Char) : List Char :=
  if cs.head? = some '$' ∧ '*' ∈ cs then
    match findCh cs '*' with
    | some i => sliceChars cs 1 i
    | none => cs
  else cs

/-- The per-field update deltas produced by one attitude sentence (`none`
leaves the stored value untouched). -/
structure AttUpdate where
  heading : Option ℚ
  pitch : Option ℚ
  roll : Option ℚ
  temperature : Option ℚ
  deriving DecidableEq, Repr

/-- `parse_message` of `GPS_IMU_OFFSET_TCP_Server.py` (lines 164-222), which
is also `parse_message` of `src/UDP/ClientSendsData/GPS_IMU_UDP_Client.py`
(lines 119-175): each marker is looked up independently; a field is decoded
only when its marker and the following marker are both present (`T` runs to
the end of the line), and a `ValueError` from `float` is caught per field,
leaving just that field without an update.  The outer `except` never fires
(every operation here is total), so the sentence is never rejected whole. -/
def parse_message (cs : List Char) : AttUpdate :=
  let m := stripSentence cs
  let heading :=
    match findCh m 'C' with
    | some c_index =>
      match findFrom m 'P' c_index with
      | some p_index => pyFloatChars (sliceChars m (c_index + 1) p_index)
      | none => none
    | none => none
  let pitch :=
    match findCh m 'P' with
    | some p_index =>
      match findFrom m 'R' p_index with
      | some r_index => pyFloatChars (sliceChars m (p_index + 1) r_index)
      | none => none
    | none => none
  let roll :=
    match findCh m 'R' with
    | some r_index =>
      match findFrom m 'T' r_index with
      | some t_index => pyFloatChars (sliceChars m (r_index + 1) t_index)
      | none => none
    | none => none
  let temperature :=
    match findCh m 'T' with
    | some t_index => pyFloatChars (m.drop (t_index + 1))
    | none => none
  ⟨heading, pitch, roll, temperature⟩

/-- Result of `parse_message` of `src/IMU_TCP_Server.py` (lines 123-160):
the updates applied before any failure, plus the returned success flag. -/
structure ImuParseResult where
  heading : Option ℚ
  pitch : Option ℚ
  roll : Option ℚ
  temperature : Option ℚ
  ok : Bool
  deriving DecidableEq, Repr

/-- `parse_message` of `src/IMU_TCP_Server.py`: same marker layout, but the
single `try` wraps the whole body, so the first `float` that raises
`ValueError` aborts the sentence — fields after the bad one are never
decoded and the function returns `False` (updates made before the failure
stand, because the globals are assigned as parsing proceeds). -/
def parse_message_imu (cs : List Char) : ImuParseResult :=
  let m := stripSentence cs
  let stepC : Option (Option ℚ) :=
    match findCh m 'C' with
    | some c_index =>
      match findFrom m 'P' c_index with
      | some p_index =>
        match pyFloatChars (sliceChars m (c_index + 1) p_index) with
        | some v => some (some v)
        | none => none
      | none => some none
    | none => some none
  match stepC with
  | none => ⟨none, none, none, none, false⟩
  | some heading =>
    let stepP : Option (Option ℚ) :=
      match findCh m 'P' with
      | some p_index =>
        match findFrom m 'R' p_index with
        | some r_index =>
          match pyFloatChars (sliceChars m (p_index + 1) r_index) with
          | some v => some (some v)
          | none => none
        | none => some none
      | none => some none
    match stepP with
    | none => ⟨heading, none, none, none, false⟩
    | some pitch =>
      let stepR : Option (Option ℚ) :=
        match findCh m 'R' with
        | some r_index =>
          match findFrom m 'T' r_index with
          | some t_index =>
            match pyFloatChars (sliceChars m (r_index + 1) t_index) with
            | some v => some (some v)
            | none => none
          | none => some none
        | none => some none
      match stepR with
      | none => ⟨heading, pitch, none, none, false⟩
      | some roll =>
        let stepT : Option (Option ℚ) :=
          match findCh m 'T' with
          | some t_index =>
            match pyFloatChars (m.drop (t_index + 1)) with
            | some v => some (some v)
            | none => none
          | none => some none
        match stepT with
        | none => ⟨heading, pitch, roll, none, false⟩
        | some temperature => ⟨heading, pitch, roll, temperature, true⟩

/-! ### Spec-side view of the sentence decoder: marker segments

For the theorems about `parse_message`, the text claimed by each marker is
captured by one extractor per field: the characters strictly between the
marker and the following marker (`P` after `C`, `R` after `P`, `T` after
`R`), where the segment exists only when that following marker is present;
the `T` segment runs to the end of the line. -/

/-- Text between `C` and the next `P` (require both). -/
def segC (m : List Char) : Option (List Char) :=
  match findCh m 'C' with
  | some c_index => (findFrom m 'P' c_index).map (fun p => sliceChars m (c_index + 1) p)
  | none => none

/-- Text between the first `P` and the next `R` (require both). -/
def segP (m : List Char) : Option (List Char) :=
  match findCh m 'P' with
  | some p_index => (findFrom m 'R' p_index).map (fun r => sliceChars m (p_index + 1) r)
  | none => none

/-- Text between the first `R` and the next `T` (require both). -/
def segR (m : List Char) : Option (List Char) :=
  match findCh m 'R' with
  | some r_index => (findFrom m 'T' r_index).map (fun t => sliceChars m (r_index + 1) t)
  | none => none

/-- Text after the first `T`, to the end of the line. -/
def segT (m : List Char) : Option (List Char) :=
  (findCh m 'T').map (fun t_index => m.drop (t_index + 1))

/-! ### The broadcast hub (`broadcast_data`)

`broadcast_data` of `GPS_IMU_OFFSET_TCP_Server.py` (lines 110-129) and of
`src/TCP/ServerSendsData/RAW_GPS_IMU_TCP_Server.py` (lines 8-16): the record
is serialized once, then the loop iterates over a copy `clients[:]` of the
connection list; `sendall` either succeeds (the handle receives the record)
or raises, in which case that handle is removed from `clients` (first
occurrence, `list.remove`) and closed, and the loop continues with the next
handle.  Handles are modelled by naturals and a write failure by the
predicate `fails`. -/

/-- Result of one `broadcast_data` call: the `clients` list after the loop,
the handles that received the serialized record, and the handles closed. -/
structure HubResult where
  clients : List ℕ
  delivered : List ℕ
  closed : List ℕ
  deriving DecidableEq, Repr

/-- One iteration of the `for client in clients[:]` loop: a successful
`sendall` records the delivery; a failing one removes the handle from the
live list (`clients.remove(client)`, first occurrence) and closes it. -/
def broadcastStep (fails : ℕ → Bool) (st : HubResult) (c : ℕ) : HubResult :=
  if fails c then
    { st with clients := st.clients.erase c, closed := st.closed ++ [c] }
  else { st with delivered := st.delivered ++ [c] }

/-- The `broadcast_data` loop over a snapshot of the client list. -/
def broadcast_data (fails : ℕ → Bool) (clients : List ℕ) : HubResult :=
  clients.foldl (broadcastStep fails) ⟨clients, [], []⟩

/-- Concrete attitude sentence used as a test input: marker `C` with numeric
text but no later markers. -/
def exCOnly : String := "C123.4"

/-- Concrete attitude sentence used as a test input: unparseable heading
text after `C`, numeric pitch/roll/temperature. -/
def exBadSentence : String := "CabcP1.0R2.0T3.0"

/-! ## Helper lemmas -/

lemma pymod_def (x m : ℚ) : pymod x m = x - m * ⌊x / m⌋ := rfl

lemma pymod_nonneg (x m : ℚ) (hm : 0 < m) : 0 ≤ pymod x m := by
  have h := Int.floor_le (x / m)
  have h2 : m * (⌊x / m⌋ : ℚ) ≤ m * (x / m) :=
    mul_le_mul_of_nonneg_left h (le_of_lt hm)
  rw [mul_div_cancel₀ x (ne_of_gt hm)] at h2
  rw [pymod_def]
  linarith

lemma pymod_lt (x m : ℚ) (hm : 0 < m) : pymod x m < m := by
  have h := Int.lt_floor_add_one (x / m)
  have h2 : m * (x / m) < m * ((⌊x / m⌋ : ℚ) + 1) :=
    mul_lt_mul_of_pos_left h hm
  rw [mul_div_cancel₀ x (ne_of_gt hm)] at h2
  rw [pymod_def]
  linarith

lemma pymod_add_int_mul (x m : ℚ) (k : ℤ) (hm : m ≠ 0) :
    pymod (x + m * k) m = pymod x m := by
  have h1 : (x + m * k) / m = x / m + k := by
    rw [add_div, mul_div_cancel_left₀ _ hm]
  rw [pymod_def, pymod_def, h1, Int.floor_add_int]
  push_cast
  ring

lemma pymod_zero_left (m : ℚ) : pymod 0 m = 0 := by
  rw [pymod_def]
  simp

lemma pymod_pymod_add (a b m : ℚ) (hm : m ≠ 0) :
    pymod (pymod a m + b) m = pymod (a + b) m := by
  have h : pymod a m + b = (a + b) + m * ((-⌊a / m⌋ : ℤ) : ℚ) := by
    rw [pymod_def]
    push_cast
    ring
  rw [h, pymod_add_int_mul _ _ _ hm]

lemma pymod_sub_pymod (a b m : ℚ) (hm : m ≠ 0) :
    pymod (pymod a m - pymod b m) m = pymod (a - b) m := by
  have h : pymod a m - pymod b m = (a - b) + m * ((⌊b / m⌋ - ⌊a / m⌋ : ℤ) : ℚ) := by
    rw [pymod_def, pymod_def]
    push_cast
    ring
  rw [h, pymod_add_int_mul _ _ _ hm]

lemma sub_eq_int_mul_of_pymod_eq (x y m : ℚ) (h : pymod x m = pymod y m) :
    ∃ k : ℤ, x - y = m * k := by
  refine ⟨⌊x / m⌋ - ⌊y / m⌋, ?_⟩
  rw [pymod_def, pymod_def] at h
  push_cast
  linarith

lemma roundHalfEven_intCast (n : ℤ) : roundHalfEven (n : ℚ) = n := by
  unfold roundHalfEven
  rw [Int.floor_intCast]
  norm_num

lemma roundHalfEven_eq_of_eq_intCast (x : ℚ) (n : ℤ) (h : x = (n : ℚ)) :
    roundHalfEven x = n := by
  rw [h, roundHalfEven_intCast]

lemma toRat_fmtd (s : ℤ) (p : ℕ) : (FVal.fmtd s p).toRat = (s : ℚ) / 10 ^ p := rfl

lemma fmtStep_fmtd_le (s : ℤ) (p q : ℕ) (h : p ≤ q) :
    fmtStep q (.fmtd s p) = .fmtd (s * 10 ^ (q - p)) q := by
  unfold fmtStep formatFixed
  rw [toRat_fmtd]
  congr 1
  apply roundHalfEven_eq_of_eq_intCast
  have hq : (10 : ℚ) ^ q = 10 ^ p * 10 ^ (q - p) := by
    rw [← pow_add]
    congr 1
    omega
  have h10 : (10 : ℚ) ^ p ≠ 0 := by positivity
  rw [hq]
  push_cast
  field_simp
  ring

/-! ## Claim theorems -/

/-- C1: for every relative-position payload, the GPS-only client stores the
enum label determined by `flags & 0b00011000` (0 ↦ "None", 8 ↦ "Float",
16 ↦ "Fixed", otherwise "Unknown"); but the OFFSET server variant, after
computing the very same label, stores the literal `"N/A"` into
`RTK_Fix_Quality` for every payload, so the emitted value never equals the
enum label the claim (and the server's own dead computation) calls for. -/
theorem c1_rtk_quality_stored (payload : List ℕ) (b : GpsBuffer)
    (g : ServerGlobals) (d : ServerData) :
    (parse_ubx_navrelposned payload b).rtkFixQuality =
      some (rtkFixQualityLabel
        (fromBytesLE (sliceBytes payload 36 40) &&& FLAGS_CARR_SOLN_MASK)) ∧
    ((parse_ubx_navrelposned_srv payload g d).2).rtkFixQuality = some labelNA ∧
    rtkFixQualityLabel 0 = labelNone ∧
    rtkFixQualityLabel 8 = labelFloat ∧
    rtkFixQualityLabel 16 = labelFixed ∧
    rtkFixQualityLabel 24 = labelUnknown ∧
    labelNA ≠ labelNone ∧ labelNA ≠ labelFloat ∧
    labelNA ≠ labelFixed ∧ labelNA ≠ labelUnknown := by
  refine ⟨rfl, rfl, rfl, ?_, ?_, ?_, ?_, ?_, ?_, ?_⟩ <;> decide

/-- C2 counterexample: `apply_offset_and_sign` of `src/IMU_TCP_Server.py`
formats a present IMU temperature of `20` to seven decimal places
(`"20.0000000"`), not to the one decimal place (`"20.0"`) the claim
requires. -/
theorem c2_counterexample :
    (apply_offset_and_sign_imu Config.default ServerGlobals.init
        ⟨none, none, none, some (.num 20)⟩).imuTemperature =
      some (FVal.fmtd 200000000 7) ∧
    FVal.fmtd 200000000 7 ≠ formatFixed 1 (20 : ℚ) := by
  constructor
  · show some (fmtStep 7 (.num 20)) = _
    unfold fmtStep formatFixed FVal.toRat
    rw [roundHalfEven_eq_of_eq_intCast _ 200000000 (by norm_num)]
  · intro h
    unfold formatFixed at h
    exact absurd (congrArg FVal.places h) (by simp [FVal.places])

/-- C2 (amended): formatting precision by variant.  In
`src/GPS_IMU_TCP_Client.py` every present field is formatted exactly once,
after all corrections: latitude/longitude to 7 places, everything else to 1
place.  In `GPS_IMU_OFFSET_TCP_Server.py` latitude/longitude are formatted
once to 7 places, but every other present numeric field is formatted twice —
first to 7 places, then reparsed and reformatted to 1 place — and the IMU
heading is formatted three times (1, then 7, then 1 places).  In
`src/IMU_TCP_Server.py` every present IMU field is formatted to 7 places,
not 1. -/
theorem c2_formatting_by_variant (cfg : Config) (g : ServerGlobals)
    (d : ServerData) (di : ImuData) :
    ((apply_offset_and_sign_cli cfg g d).latitude = d.latitude.map (fmtStep 7) ∧
     (apply_offset_and_sign_cli cfg g d).longitude = d.longitude.map (fmtStep 7) ∧
     (apply_offset_and_sign_cli cfg g d).altitude = d.altitude.map (fmtStep 1) ∧
     (apply_offset_and_sign_cli cfg g d).antennaDistance =
       d.antennaDistance.map (fmtStep 1) ∧
     (apply_offset_and_sign_cli cfg g d).imuTemperature =
       d.imuTemperature.map (fmtStep 1) ∧
     (apply_offset_and_sign_cli cfg g d).heading =
       g.originalHeading.map
         (fun h => formatFixed 1 (pymod (h + cfg.headingOffset) 360)) ∧
     (apply_offset_and_sign_cli cfg g d).imuRoll =
       g.originalImuRoll.map
         (fun r => formatFixed 1 (if cfg.negateRoll then -r else r)) ∧
     (apply_offset_and_sign_cli cfg g d).imuPitch =
       g.originalImuPitch.map
         (fun p => formatFixed 1 (if cfg.negatePitch then -p else p)) ∧
     (apply_offset_and_sign_cli cfg g d).imuHeading =
       g.originalImuHeading.map
         (fun h => formatFixed 1 (if cfg.negateYaw then -h else h))) ∧
    ((apply_offset_and_sign_srv cfg g d).latitude = d.latitude.map (fmtStep 7) ∧
     (apply_offset_and_sign_srv cfg g d).longitude = d.longitude.map (fmtStep 7) ∧
     (apply_offset_and_sign_srv cfg g d).altitude =
       d.altitude.map (fun v => fmtStep 1 (fmtStep 7 v)) ∧
     (apply_offset_and_sign_srv cfg g d).antennaDistance =
       d.antennaDistance.map (fun v => fmtStep 1 (fmtStep 7 v)) ∧
     (apply_offset_and_sign_srv cfg g d).imuTemperature =
       d.imuTemperature.map (fun v => fmtStep 1 (fmtStep 7 v)) ∧
     (apply_offset_and_sign_srv cfg g d).heading =
       g.originalHeading.map
         (fun h => fmtStep 1 (fmtStep 7 (.num (pymod (h + cfg.headingOffset) 360)))) ∧
     (apply_offset_and_sign_srv cfg g d).imuRoll =
       g.originalImuRoll.map
         (fun r => fmtStep 1 (fmtStep 7 (.num (if cfg.negateRoll then -r else r)))) ∧
     (apply_offset_and_sign_srv cfg g d).imuPitch =
       g.originalImuPitch.map
         (fun p => fmtStep 1 (fmtStep 7 (.num (if cfg.negatePitch then -p else p)))) ∧
     (apply_offset_and_sign_srv cfg g d).imuHeading =
       g.originalImuHeading.map
         (fun h => fmtStep 1 (fmtStep 7
           (formatFixed 1 (pymod (h + g.imuHeadingOffset) 360))))) ∧
    ((apply_offset_and_sign_imu cfg g di).imuTemperature =
       di.imuTemperature.map (fmtStep 7) ∧
     (apply_offset_and_sign_imu cfg g di).imuRoll =
       g.originalImuRoll.map
         (fun r => formatFixed 7 (if cfg.negateRoll then -r else r)) ∧
     (apply_offset_and_sign_imu cfg g di).imuPitch =
       g.originalImuPitch.map
         (fun p => formatFixed 7 (if cfg.negatePitch then -p else p)) ∧
     (apply_offset_and_sign_imu cfg g di).imuHeading =
       g.originalImuHeading.map
         (fun h => formatFixed 7 (if cfg.negateYaw then -h else h))) := by
  simp only [apply_offset_and_sign_cli, apply_offset_and_sign_srv,
    apply_offset_and_sign_imu, Option.map_map, Function.comp]
  refine ⟨⟨?_, ?_, ?_, ?_, ?_, ?_, ?_, ?_, ?_⟩,
         ⟨?_, ?_, ?_, ?_, ?_, ?_, ?_, ?_, ?_⟩,
         ⟨?_, ?_, ?_, ?_⟩⟩ <;> trivial

lemma roundDp_intCast (p : ℕ) (n : ℤ) : roundDp p ((n : ℤ) : ℚ) = n := by
  unfold roundDp
  rw [roundHalfEven_eq_of_eq_intCast _ (n * 10 ^ p) (by push_cast; ring)]
  have h10 : (10 : ℚ) ^ p ≠ 0 := by positivity
  push_cast
  field_simp

/-- C3: with `negate_yaw` set and a raw IMU heading of `90` (calibrated
offset `0`), the OFFSET server's `apply_offset_and_sign` emits
`IMU_Heading = "90.0"`: the negation computed on line 79 is immediately
overwritten on lines 81-85 by `(original_imu_heading + imu_heading_offset) %
360`, which ignores the negated value.  The client variant
(`src/GPS_IMU_TCP_Client.py`), which has no calibrated offset, emits the
negated heading `"-90.0"` as the claim describes. -/
theorem c3_yaw_negation_overwritten :
    (apply_offset_and_sign_srv ⟨0, false, false, true⟩
        ⟨none, none, none, some 90, 0⟩ ServerData.init).imuHeading =
      some (FVal.fmtd 900 1) ∧
    (apply_offset_and_sign_cli ⟨0, false, false, true⟩
        ⟨none, none, none, some 90, 0⟩ ServerData.init).imuHeading =
      some (FVal.fmtd (-900) 1) ∧
    (FVal.fmtd 900 1 : FVal) ≠ FVal.fmtd (-900) 1 := by
  have hpy : pymod ((90 : ℚ) + 0) 360 = 90 := by
    rw [pymod_def]
    norm_num
  have hf1 : formatFixed 1 (90 : ℚ) = .fmtd 900 1 := by
    unfold formatFixed
    rw [roundHalfEven_eq_of_eq_intCast _ 900 (by norm_num)]
  have hf7 : fmtStep 7 (FVal.fmtd 900 1) = .fmtd 900000000 7 := by
    rw [fmtStep_fmtd_le 900 1 7 (by norm_num)]
    norm_num
  have hback : fmtStep 1 (FVal.fmtd 900000000 7) = .fmtd 900 1 := by
    unfold fmtStep formatFixed
    rw [toRat_fmtd]
    rw [roundHalfEven_eq_of_eq_intCast _ 900 (by norm_num)]
  refine ⟨?_, ?_, by decide⟩
  · show some (fmtStep 1 (fmtStep 7 (formatFixed 1 (pymod ((90 : ℚ) + 0) 360)))) = _
    rw [hpy, hf1, hf7, hback]
  · show some (fmtStep 1 (FVal.num (-(90 : ℚ)))) = _
    show some (formatFixed 1 (-(90 : ℚ))) = _
    unfold formatFixed
    rw [roundHalfEven_eq_of_eq_intCast _ (-900) (by norm_num)]

/-- C5: one calibrator tick.  If either heading is absent the tick changes
nothing.  Otherwise, with `d0 = (gpsHeading - imuHeading) mod 360` (the code
normalizes each heading mod 360 first, which is equivalent), folded into
`(-180, 180]` by subtracting 360 when above 180 and rounded to 7 decimal
places, the stored `imu_heading_offset` is replaced by the rounded
difference exactly when its absolute value exceeds `0.1`, and the state is
otherwise untouched. -/
theorem c5_calibrator_tick (g : ServerGlobals) :
    ((g.originalImuHeading = none ∨ g.originalHeading = none) →
      adjust_imu_heading_offset_tick g = g) ∧
    (∀ gps imu : ℚ, g.originalHeading = some gps →
      g.originalImuHeading = some imu →
      let d0 := pymod (gps - imu) 360
      let d1 := if 180 < d0 then d0 - 360 else d0
      let d := roundDp 7 d1
      (-180 < d1 ∧ d1 ≤ 180) ∧
      adjust_imu_heading_offset_tick g =
        (if 1 / 10 < |d| then { g with imuHeadingOffset := d } else g)) := by
  obtain ⟨oh, op, orl, oi, off⟩ := g
  constructor
  · rintro (h | h) <;> simp only at h <;> subst h
    · rfl
    · cases oi <;> rfl
  · intro gps imu hg hi
    simp only at hg hi
    subst hg
    subst hi
    have h360 : (0 : ℚ) < 360 := by norm_num
    have hd0lo := pymod_nonneg (gps - imu) 360 h360
    have hd0hi := pymod_lt (gps - imu) 360 h360
    constructor
    · constructor
      · split <;> linarith
      · split <;> linarith
    · show adjust_imu_heading_offset_tick _ = _
      unfold adjust_imu_heading_offset_tick
      simp only
      rw [pymod_sub_pymod gps imu 360 (by norm_num)]

/-- C5 witness: a tick with GPS heading 100 and IMU heading 50 (difference
50 degrees, above the 0.1-degree threshold) replaces the offset with 50. -/
theorem c5_calibrator_witness :
    adjust_imu_heading_offset_tick ⟨some 100, none, none, some 50, 0⟩ =
      ⟨some 100, none, none, some 50, 50⟩ ∧
    adjust_imu_heading_offset_tick ⟨none, none, none, some 50, 7⟩ =
      ⟨none, none, none, some 50, 7⟩ := by
  constructor
  · have h := ((c5_calibrator_tick ⟨some 100, none, none, some 50, 0⟩).2
      100 50 rfl rfl).2
    have hd0 : pymod ((100 : ℚ) - 50) 360 = 50 := by
      rw [pymod_def]
      norm_num
    have hr : roundDp 7 ((50 : ℚ)) = 50 := by
      rw [show (50 : ℚ) = ((50 : ℤ) : ℚ) by norm_num, roundDp_intCast]
    rw [h, hd0, if_neg (show ¬ (180 : ℚ) < 50 by norm_num), hr,
      if_pos (show (1 : ℚ) / 10 < |(50 : ℚ)| by rw [abs_of_pos] <;> norm_num)]
  · exact (c5_calibrator_tick ⟨none, none, none, some 50, 7⟩).1 (Or.inr rfl)

/-- C7 counterexample: an empty NAV-PVT payload is not rejected — it updates
the telemetry record (timestamp becomes `0`), contradicting the claim that a
too-short payload makes no telemetry state update. -/
theorem c7_counterexample :
    (parse_ubx_navpvt [] GpsBuffer.init).timestamp = some 0 ∧
    GpsBuffer.init.timestamp = none ∧
    parse_ubx_navpvt [] GpsBuffer.init ≠ GpsBuffer.init := by
  refine ⟨rfl, rfl, fun h => ?_⟩
  have h2 := congrArg GpsBuffer.timestamp h
  simp [parse_ubx_navpvt, GpsBuffer.init] at h2

/-- C7 (amended): when a NAV-PVT or NAV-RELPOSNED payload is shorter than
the offsets it is indexed at, the interpreter performs no out-of-bounds read
(every slice is a sublist of the payload, truncated at its end) and raises
no error (the functions are total), but it does not treat the frame as
malformed: the telemetry fields are always updated, with values decoded from
the truncated slices — an entirely missing slice decodes to zero. -/
theorem c7_short_payload_decoded (payload : List ℕ) (st : GpsBuffer) :
    (∀ (l : List ℕ) (a b : ℕ), (sliceBytes l a b).Sublist l) ∧
    ((parse_ubx_navpvt payload st).timestamp =
        some (fromBytesLE (sliceBytes payload 0 4)) ∧
      (parse_ubx_navpvt payload st).latitude =
        some ((sintFromBytesLE (sliceBytes payload 28 32) : ℚ) / 10 ^ 7) ∧
      (parse_ubx_navpvt payload st).longitude =
        some ((sintFromBytesLE (sliceBytes payload 24 28) : ℚ) / 10 ^ 7) ∧
      (parse_ubx_navpvt payload st).altitude =
        some ((sintFromBytesLE (sliceBytes payload 32 36) : ℚ) / 10 ^ 3)) ∧
    (payload.length ≤ 28 → (parse_ubx_navpvt payload st).latitude = some 0) ∧
    (payload.length ≤ 24 →
      (parse_ubx_navrelposned payload st).heading = some 0) := by
  have hslice : ∀ (l : List ℕ) (a b : ℕ), l.length ≤ a → sliceBytes l a b = [] := by
    intro l a b h
    unfold sliceBytes
    apply List.drop_eq_nil_of_le
    rw [List.length_take]
    omega
  have hzero : ((sintFromBytesLE [] : ℤ) : ℚ) = 0 := by
    norm_num [sintFromBytesLE, fromBytesLE]
  refine ⟨?_, ⟨rfl, rfl, rfl, rfl⟩, ?_, ?_⟩
  · intro l a b
    exact (List.drop_sublist _ _).trans (List.take_sublist _ _)
  · intro h
    show some ((sintFromBytesLE (sliceBytes payload 28 32) : ℚ) / 10 ^ 7) = _
    rw [hslice payload 28 32 h, hzero]
    norm_num
  · intro h
    show some ((sintFromBytesLE (sliceBytes payload 24 28) : ℚ) / 10 ^ 5) = _
    rw [hslice payload 24 28 h, hzero]
    norm_num

/-- C7 witness: the empty payload is short, and its latitude decodes to the
zero-extended value rather than being rejected. -/
theorem c7_witness :
    ([] : List ℕ).length ≤ 28 ∧
    (parse_ubx_navpvt [] GpsBuffer.init).latitude = some 0 :=
  ⟨by decide, (c7_short_payload_decoded [] GpsBuffer.init).2.2.1 (by decide)⟩

lemma foldl_erase_eq_filter :
    ∀ (xs l : List ℕ), l.Nodup →
      xs.foldl List.erase l = l.filter (fun a => !xs.contains a) := by
  intro xs
  induction xs with
  | nil => intro l _; simp
  | cons x xs ih =>
    intro l hl
    show xs.foldl List.erase (l.erase x) = _
    rw [ih (l.erase x) (hl.erase x), List.Nodup.erase_eq_filter hl,
      List.filter_filter]
    apply List.filter_congr
    intro a _
    by_cases hax : a = x <;> simp [hax, bne_iff_ne, Bool.not_or]

lemma broadcastStep_foldl (fails : ℕ → Bool) :
    ∀ (cs : List ℕ) (st : HubResult),
      cs.foldl (broadcastStep fails) st =
        ⟨(cs.filter fails).foldl List.erase st.clients,
         st.delivered ++ cs.filter (fun c => !fails c),
         st.closed ++ cs.filter fails⟩ := by
  intro cs
  induction cs with
  | nil => intro st; simp
  | cons c cs ih =>
    intro st
    show cs.foldl (broadcastStep fails) (broadcastStep fails st c) = _
    by_cases hc : fails c <;>
      simp [broadcastStep, hc, ih, List.filter_cons]

/-- C8: publishing with connected handles `clients` and a write-failure
predicate `fails`: every handle whose write succeeds receives the serialized
record in that same publish call, every failing handle is closed, and —
when the handle set has no duplicates, as a set of distinct connections
does — the post-publish client list is exactly the original list with the
failing handles removed (each removed by its single failed write). -/
theorem c8_broadcast_fault_isolation (fails : ℕ → Bool) (clients : List ℕ) :
    (broadcast_data fails clients).delivered =
      clients.filter (fun c => !fails c) ∧
    (broadcast_data fails clients).closed = clients.filter fails ∧
    (clients.Nodup →
      (broadcast_data fails clients).clients =
        clients.filter (fun c => !fails c)) := by
  unfold broadcast_data
  rw [broadcastStep_foldl]
  refine ⟨by simp, by simp, fun hnd => ?_⟩
  show (clients.filter fails).foldl List.erase clients = _
  rw [foldl_erase_eq_filter _ _ hnd]
  apply List.filter_congr
  intro a ha
  cases hf : fails a <;> simp [List.elem_iff, List.mem_filter, ha, hf]

/-- C8 witness: three connected handles, handle 2 always fails: 1 and 3
still receive the record, and 2 is closed and absent from the set. -/
theorem c8_broadcast_witness :
    ([1, 2, 3] : List ℕ).Nodup ∧
    broadcast_data (fun c => c == 2) [1, 2, 3] = ⟨[1, 3], [1, 3], [2]⟩ := by
  refine ⟨by decide, ?_⟩
  obtain ⟨h1, h2, h3⟩ := c8_broadcast_fault_isolation (fun c => c == 2) [1, 2, 3]
  have h3 := h3 (by decide)
  cases hb : broadcast_data (fun c => c == 2) [1, 2, 3] with
  | mk cl de clo =>
    rw [hb] at h1 h2 h3
    simp only at h1 h2 h3
    subst h1
    subst h2
    subst h3
    decide

lemma parse_message_heading (cs : List Char) :
    (parse_message cs).heading = (segC (stripSentence cs)).bind pyFloatChars := by
  simp only [parse_message, segC]
  cases hc : findCh (stripSentence cs) 'C' with
  | none => rfl
  | some c =>
    dsimp only
    cases hf : findFrom (stripSentence cs) 'P' c with
    | none => rfl
    | some p => rfl

lemma parse_message_pitch (cs : List Char) :
    (parse_message cs).pitch = (segP (stripSentence cs)).bind pyFloatChars := by
  simp only [parse_message, segP]
  cases hc : findCh (stripSentence cs) 'P' with
  | none => rfl
  | some pi =>
    dsimp only
    cases hf : findFrom (stripSentence cs) 'R' pi with
    | none => rfl
    | some r => rfl

lemma parse_message_roll (cs : List Char) :
    (parse_message cs).roll = (segR (stripSentence cs)).bind pyFloatChars := by
  simp only [parse_message, segR]
  cases hc : findCh (stripSentence cs) 'R' with
  | none => rfl
  | some r =>
    dsimp only
    cases hf : findFrom (stripSentence cs) 'T' r with
    | none => rfl
    | some t => rfl

lemma parse_message_temperature (cs : List Char) :
    (parse_message cs).temperature = (segT (stripSentence cs)).bind pyFloatChars := by
  simp only [parse_message, segT]
  cases hc : findCh (stripSentence cs) 'T' with
  | none => rfl
  | some t => rfl

/-- C9 (amended): the decoded value of each marker is the decimal text
between the marker and the *required following marker* — `P` after `C`, `R`
after `P`, `T` after `R` — and the field is produced only when that
following marker is present; only the `T` (temperature) value runs to the
end of the line.  A marker whose required follower is missing yields no
field, even when numeric text follows it. -/
theorem c9_marker_segments (cs : List Char) :
    parse_message cs =
      ⟨(segC (stripSentence cs)).bind pyFloatChars,
       (segP (stripSentence cs)).bind pyFloatChars,
       (segR (stripSentence cs)).bind pyFloatChars,
       (segT (stripSentence cs)).bind pyFloatChars⟩ := by
  have h1 := parse_message_heading cs
  have h2 := parse_message_pitch cs
  have h3 := parse_message_roll cs
  have h4 := parse_message_temperature cs
  cases hx : parse_message cs with
  | mk a b c d =>
    rw [hx] at h1 h2 h3 h4
    simp only at h1 h2 h3 h4
    rw [h1, h2, h3, h4]

/-- C9 counterexample: the sentence `C123.4` carries marker `C` with the
numeric text `123.4` and no later markers; the claim says the heading field
is still produced, but the decoder yields nothing for it. -/
theorem c9_counterexample :
    (parse_message exCOnly.toList).heading = none ∧
    pyFloatChars (exCOnly.toList.drop 1) = some (617 / 5) := by
  constructor
  · rfl
  · show some (((123 : ℕ) : ℚ) + ((4 : ℕ) : ℚ) / 10 ^ 1) = some ((617 : ℚ) / 5)
    norm_num

/-- C6 (amended): in the OFFSET server's (and UDP client's) `parse_message`,
a field whose marker text is not a parseable number is the only field lost:
every other marker segment that parses still yields its field.  In
`src/IMU_TCP_Server.py`, however, the single `try` block means the first
unparseable field aborts the sentence: all later fields are dropped and the
parse reports failure. -/
theorem c6_bad_field_isolation (cs hs ps rs ts : List Char) (p r t : ℚ)
    (hC : segC (stripSentence cs) = some hs) (hCbad : pyFloatChars hs = none)
    (hP : segP (stripSentence cs) = some ps) (hPval : pyFloatChars ps = some p)
    (hR : segR (stripSentence cs) = some rs) (hRval : pyFloatChars rs = some r)
    (hT : segT (stripSentence cs) = some ts) (hTval : pyFloatChars ts = some t) :
    parse_message cs = ⟨none, some p, some r, some t⟩ ∧
    parse_message_imu cs = ⟨none, none, none, none, false⟩ := by
  constructor
  · have h1 := parse_message_heading cs
    have h2 := parse_message_pitch cs
    have h3 := parse_message_roll cs
    have h4 := parse_message_temperature cs
    rw [hC, Option.some_bind, hCbad] at h1
    rw [hP, Option.some_bind, hPval] at h2
    rw [hR, Option.some_bind, hRval] at h3
    rw [hT, Option.some_bind, hTval] at h4
    cases hx : parse_message cs with
    | mk a b c d =>
      rw [hx] at h1 h2 h3 h4
      simp only at h1 h2 h3 h4
      rw [h1, h2, h3, h4]
  · unfold segC at hC
    cases hfc : findCh (stripSentence cs) 'C' with
    | none => rw [hfc] at hC; exact absurd hC (by simp)
    | some c =>
      rw [hfc] at hC
      dsimp only at hC
      cases hff : findFrom (stripSentence cs) 'P' c with
      | none => rw [hff] at hC; exact absurd hC (by simp)
      | some pi =>
        rw [hff] at hC
        simp only [Option.map_some'] at hC
        have hseg : sliceChars (stripSentence cs) (c + 1) pi = hs :=
          Option.some.inj hC
        simp only [parse_message_imu, hfc, hff, hseg, hCbad]

/-- C6 counterexample: in the sentence `CabcP1.0R2.0T3.0` the `T` marker is
followed by the numeric text `3.0`, yet `parse_message` of
`src/IMU_TCP_Server.py` yields no temperature (and no pitch or roll) and
reports the whole sentence as failed: the single bad heading field discards
the rest of the sentence. -/
theorem c6_counterexample :
    parse_message_imu exBadSentence.toList = ⟨none, none, none, none, false⟩ ∧
    segT (stripSentence exBadSentence.toList) = some ['3', '.', '0'] ∧
    pyFloatChars ['3', '.', '0'] = some 3 := by
  refine ⟨by decide, by decide, ?_⟩
  show some (((3 : ℕ) : ℚ) + ((0 : ℕ) : ℚ) / 10 ^ 1) = some 3
  norm_num

/-- C6 witness: in `CabcP1.0R2.0T3.0` the heading text `abc` fails to
parse; the OFFSET-server decoder still yields pitch 1.0, roll 2.0 and
temperature 3.0, while the IMU-server decoder drops them all and reports
failure. -/
theorem c6_witness :
    parse_message exBadSentence.toList = ⟨none, some 1, some 2, some 3⟩ ∧
    parse_message_imu exBadSentence.toList = ⟨none, none, none, none, false⟩ := by
  have h1 : pyFloatChars ['1', '.', '0'] = some 1 := by
    show some (((1 : ℕ) : ℚ) + ((0 : ℕ) : ℚ) / 10 ^ 1) = some 1
    norm_num
  have h2 : pyFloatChars ['2', '.', '0'] = some 2 := by
    show some (((2 : ℕ) : ℚ) + ((0 : ℕ) : ℚ) / 10 ^ 1) = some 2
    norm_num
  have h3 : pyFloatChars ['3', '.', '0'] = some 3 := by
    show some (((3 : ℕ) : ℚ) + ((0 : ℕ) : ℚ) / 10 ^ 1) = some 3
    norm_num
  exact c6_bad_field_isolation exBadSentence.toList
    (['a', 'b', 'c']) (['1', '.', '0']) (['2', '.', '0']) (['3', '.', '0'])
    1 2 3 (by decide) (by decide) (by decide) h1 (by decide) h2 (by decide) h3

lemma headingAfterSends_formula (h off : ℚ) :
    ∀ n : ℕ, 1 ≤ n →
      headingAfterSends off (some h) n = some (pymod (h + n * off) 360) := by
  intro n
  induction n with
  | zero => intro hz; exact absurd hz (by omega)
  | succ k ih =>
    intro _
    rcases Nat.eq_zero_or_pos k with hk | hk
    · subst hk
      show some (pymod (h + off) 360) = _
      congr 1
      push_cast
      ring_nf
    · rw [headingAfterSends, Function.iterate_succ_apply']
      have hik : (apply_heading_offset off)^[k] (some h) =
          some (pymod (h + k * off) 360) := ih hk
      rw [hik]
      show some (pymod (pymod (h + k * off) 360 + off) 360) = _
      rw [pymod_pymod_add _ _ _ (by norm_num)]
      congr 1
      push_cast
      ring_nf

/-- C10 (amended): in the GPS-only client the configured heading offset is
re-applied on every send cycle: after a frame stores raw heading `h`, the
`n`-th subsequent send emits `(h + n * offset) mod 360`.  Consecutive sends
of unchanged input therefore emit different headings whenever the offset is
not a multiple of 360 (for an offset that is a nonzero multiple of 360 the
compounding is invisible). -/
theorem c10_offset_compounds (h off : ℚ) (n : ℕ) (hn : 1 ≤ n) :
    headingAfterSends off (some h) n = some (pymod (h + n * off) 360) ∧
    (pymod off 360 ≠ 0 →
      headingAfterSends off (some h) (n + 1) ≠
        headingAfterSends off (some h) n) := by
  refine ⟨headingAfterSends_formula h off n hn, fun hoff heq => ?_⟩
  rw [headingAfterSends_formula h off (n + 1) (by omega),
    headingAfterSends_formula h off n hn] at heq
  obtain ⟨k, hk⟩ :=
    sub_eq_int_mul_of_pymod_eq _ _ _ (Option.some.inj heq)
  have hoffk : off = 360 * k := by
    push_cast at hk
    linarith
  apply hoff
  have h0 := pymod_add_int_mul 0 360 k (by norm_num)
  rw [zero_add] at h0
  rw [hoffk, h0, pymod_zero_left]

/-- C10 counterexample to the final clause of the claim: with the nonzero
offset 360 and stored heading 45, the first and second sends both emit 45 —
successive sends of unchanged input do not emit different headings. -/
theorem c10_counterexample :
    (360 : ℚ) ≠ 0 ∧
    headingAfterSends 360 (some 45) 1 = some 45 ∧
    headingAfterSends 360 (some 45) 2 = some 45 := by
  have h1 : pymod ((45 : ℚ) + 360) 360 = 45 := by
    rw [pymod_def]
    norm_num
  refine ⟨by norm_num, ?_, ?_⟩
  · show some (pymod ((45 : ℚ) + 360) 360) = some 45
    rw [h1]
  · show some (pymod (pymod ((45 : ℚ) + 360) 360 + 360) 360) = some 45
    rw [h1, h1]

/-- C10 witness: raw heading 355 with offset 10 sends `5.0` on the first
cycle (the spec's own wrap-around example), and the second send differs from
the first. -/
theorem c10_witness :
    headingAfterSends 10 (some 355) 1 = some 5 ∧
    headingAfterSends 10 (some 355) 2 ≠ headingAfterSends 10 (some 355) 1 := by
  obtain ⟨hf, hne⟩ := c10_offset_compounds 355 10 1 (by norm_num)
  constructor
  · rw [hf]
    congr 1
    rw [pymod_def]
    norm_num
  · exact hne (by rw [pymod_def]; norm_num)

lemma processBuffer_short (buf : List ℕ) (h : buf.length < 6) :
    processBuffer buf = ([], buf) := by
  rw [processBuffer]
  rw [dif_neg (by omega)]

lemma processBuffer_no_header (buf : List ℕ) (h6 : 6 ≤ buf.length)
    (hh : buf.take 2 ≠ UBX_HEADER) :
    processBuffer buf = processBuffer (buf.drop 1) := by
  rw [processBuffer]
  rw [dif_pos h6, if_neg hh]

lemma processBuffer_incomplete (buf : List ℕ) (h6 : 6 ≤ buf.length)
    (hh : buf.take 2 = UBX_HEADER) (hlen : buf.length < ubxTotalLen buf) :
    processBuffer buf = ([], buf) := by
  rw [processBuffer]
  rw [dif_pos h6, if_pos hh, dif_neg (by omega)]

lemma processBuffer_frame (buf : List ℕ) (h6 : 6 ≤ buf.length)
    (hh : buf.take 2 = UBX_HEADER) (htot : ubxTotalLen buf ≤ buf.length) :
    processBuffer buf =
      (⟨buf.getD 2 0, buf.getD 3 0,
          (buf.take (ubxTotalLen buf - 2)).drop 6⟩ ::
        (processBuffer (buf.drop (ubxTotalLen buf))).1,
       (processBuffer (buf.drop (ubxTotalLen buf))).2) := by
  rw [processBuffer]
  rw [dif_pos h6, if_pos hh, dif_pos htot]

lemma getD_append_left (l e : List ℕ) (i : ℕ) (hi : i < l.length) :
    (l ++ e).getD i 0 = l.getD i 0 := by
  unfold List.getD
  rw [List.get?_eq_getElem?, List.get?_eq_getElem?,
    List.getElem?_append_left hi]

lemma ubxTotalLen_append (buf e : List ℕ) (h6 : 6 ≤ buf.length) :
    ubxTotalLen (buf ++ e) = ubxTotalLen buf := by
  unfold ubxTotalLen
  rw [getD_append_left _ _ 4 (by omega), getD_append_left _ _ 5 (by omega)]

lemma ubxTotalLen_ge (buf : List ℕ) : 8 ≤ ubxTotalLen buf := by
  unfold ubxTotalLen
  omega

lemma processBuffer_append_aux :
    ∀ (n : ℕ) (buf : List ℕ), buf.length ≤ n → ∀ (e : List ℕ),
      processBuffer (buf ++ e) =
        ((processBuffer buf).1 ++
            (processBuffer ((processBuffer buf).2 ++ e)).1,
         (processBuffer ((processBuffer buf).2 ++ e)).2) := by
  intro n
  induction n with
  | zero =>
    intro buf hb e
    rw [processBuffer_short buf (by omega)]
    simp
  | succ k ih =>
    intro buf hb e
    by_cases h6 : 6 ≤ buf.length
    · by_cases hh : buf.take 2 = UBX_HEADER
      · by_cases htot : ubxTotalLen buf ≤ buf.length
        · have h8 := ubxTotalLen_ge buf
          have h6e : 6 ≤ (buf ++ e).length := by
            rw [List.length_append]
            omega
          have hhe : (buf ++ e).take 2 = UBX_HEADER := by
            rw [List.take_append_of_le_length (by omega)]
            exact hh
          have htl : ubxTotalLen (buf ++ e) = ubxTotalLen buf :=
            ubxTotalLen_append buf e h6
          have htote : ubxTotalLen (buf ++ e) ≤ (buf ++ e).length := by
            rw [htl, List.length_append]
            omega
          rw [processBuffer_frame buf h6 hh htot,
            processBuffer_frame (buf ++ e) h6e hhe htote]
          have hg2 : (buf ++ e).getD 2 0 = buf.getD 2 0 :=
            getD_append_left _ _ 2 (by omega)
          have hg3 : (buf ++ e).getD 3 0 = buf.getD 3 0 :=
            getD_append_left _ _ 3 (by omega)
          have hpay : ((buf ++ e).take (ubxTotalLen (buf ++ e) - 2)).drop 6 =
              (buf.take (ubxTotalLen buf - 2)).drop 6 := by
            rw [htl, List.take_append_of_le_length (by omega)]
          have hdrop : (buf ++ e).drop (ubxTotalLen (buf ++ e)) =
              buf.drop (ubxTotalLen buf) ++ e := by
            rw [htl, List.drop_append_of_le_length htot]
          rw [hg2, hg3, hpay, hdrop]
          rw [ih (buf.drop (ubxTotalLen buf))
            (by rw [List.length_drop]; omega) e]
          rfl
        · rw [processBuffer_incomplete buf h6 hh (by omega)]
          simp
      · have h6e : 6 ≤ (buf ++ e).length := by
          rw [List.length_append]
          omega
        have hhe : (buf ++ e).take 2 ≠ UBX_HEADER := by
          rw [List.take_append_of_le_length (by omega)]
          exact hh
        rw [processBuffer_no_header buf h6 hh,
          processBuffer_no_header (buf ++ e) h6e hhe]
        have hd : (buf ++ e).drop 1 = buf.drop 1 ++ e :=
          List.drop_append_of_le_length (by omega)
        rw [hd]
        exact ih (buf.drop 1) (by rw [List.length_drop]; omega) e
    · rw [processBuffer_short buf (by omega)]
      simp

lemma processBuffer_append (buf e : List ℕ) :
    processBuffer (buf ++ e) =
      ((processBuffer buf).1 ++
          (processBuffer ((processBuffer buf).2 ++ e)).1,
       (processBuffer ((processBuffer buf).2 ++ e)).2) :=
  processBuffer_append_aux buf.length buf le_rfl e

lemma processBuffer_rest_aux :
    ∀ (n : ℕ) (buf : List ℕ), buf.length ≤ n →
      processBuffer (processBuffer buf).2 = ([], (processBuffer buf).2) := by
  intro n
  induction n with
  | zero =>
    intro buf hb
    rw [processBuffer_short buf (by omega)]
    exact processBuffer_short buf (by omega)
  | succ k ih =>
    intro buf hb
    by_cases h6 : 6 ≤ buf.length
    · by_cases hh : buf.take 2 = UBX_HEADER
      · by_cases htot : ubxTotalLen buf ≤ buf.length
        · have h8 := ubxTotalLen_ge buf
          rw [processBuffer_frame buf h6 hh htot]
          exact ih (buf.drop (ubxTotalLen buf))
            (by rw [List.length_drop]; omega)
        · rw [processBuffer_incomplete buf h6 hh (by omega)]
          exact processBuffer_incomplete buf h6 hh (by omega)
      · rw [processBuffer_no_header buf h6 hh]
        exact ih (buf.drop 1) (by rw [List.length_drop]; omega)
    · rw [processBuffer_short buf (by omega)]
      exact processBuffer_short buf (by omega)

lemma processBuffer_rest (buf : List ℕ) :
    processBuffer (processBuffer buf).2 = ([], (processBuffer buf).2) :=
  processBuffer_rest_aux buf.length buf le_rfl

lemma feedChunks_aux :
    ∀ (chunks : List (List ℕ)) (fs : List UbxFrame) (r : List ℕ),
      processBuffer r = ([], r) →
      chunks.foldl
          (fun acc c =>
            let p := processBuffer (acc.2 ++ c)
            (acc.1 ++ p.1, p.2)) (fs, r) =
        (fs ++ (processBuffer (r ++ chunks.flatten)).1,
         (processBuffer (r ++ chunks.flatten)).2) := by
  intro chunks
  induction chunks with
  | nil =>
    intro fs r hr
    simp [hr]
  | cons c cs ih =>
    intro fs r hr
    show cs.foldl _ (fs ++ (processBuffer (r ++ c)).1,
      (processBuffer (r ++ c)).2) = _
    rw [ih _ _ (processBuffer_rest (r ++ c))]
    have hflat : r ++ (c :: cs).flatten = (r ++ c) ++ cs.flatten := by
      rw [List.flatten_cons, ← List.append_assoc]
    rw [hflat, processBuffer_append (r ++ c) cs.flatten]
    simp [List.append_assoc]

/-- C4: chunking independence of the frame decoder: feeding any byte
sequence in arbitrary chunks yields exactly the frame sequence (and leftover
buffer) obtained from the same bytes delivered as one single chunk.  An
incomplete frame at the buffer head — fewer than 6 bytes, or a matching
sync marker whose declared total length exceeds the buffered bytes — is
retained unchanged, never discarded. -/
theorem c4_chunking_independence :
    (∀ chunks : List (List ℕ),
      feedChunks chunks = processBuffer chunks.flatten) ∧
    (∀ buf : List ℕ, buf.length < 6 → processBuffer buf = ([], buf)) ∧
    (∀ buf : List ℕ, buf.take 2 = UBX_HEADER →
      buf.length < ubxTotalLen buf → processBuffer buf = ([], buf)) := by
  refine ⟨fun chunks => ?_, processBuffer_short, fun buf hh hlen => ?_⟩
  · unfold feedChunks
    rw [feedChunks_aux chunks [] [] (processBuffer_short [] (by simp))]
    simp
  · by_cases h6 : 6 ≤ buf.length
    · exact processBuffer_incomplete buf h6 hh hlen
    · exact processBuffer_short buf (by omega)

/-- C4 witness: a frame delivered in three chunks decodes identically to the
single-chunk delivery, and a buffered incomplete frame (sync marker present,
declared length not yet buffered) is retained whole. -/
theorem c4_witness :
    feedChunks [[181, 98, 1], [7, 2, 0, 9, 8, 0], [0]] =
      processBuffer [181, 98, 1, 7, 2, 0, 9, 8, 0, 0] ∧
    processBuffer [181, 98, 1, 7, 4, 0] = ([], [181, 98, 1, 7, 4, 0]) ∧
    processBuffer [181, 98] = ([], [181, 98]) := by
  refine ⟨?_, ?_, ?_⟩
  · have h := c4_chunking_independence.1 [[181, 98, 1], [7, 2, 0, 9, 8, 0], [0]]
    simpa using h
  · exact c4_chunking_independence.2.2 [181, 98, 1, 7, 4, 0] (by decide)
      (by unfold ubxTotalLen; decide)
  · exact c4_chunking_independence.2.1 [181, 98] (by decide)

end GpsHeading
